import Mathlib

/-!
# Verification of the Sentinel-2 scene-selection and index pipeline

Shallow embedding of the core logic of the repository's scripts:

* `s2_stac_pick_cloudfree.py` — candidate scoring, escalation tiers,
  top-k selection, manifest entry construction;
* `s2_make_indices.py` — `safe_index`, the SCL exclusion mask, and the
  per-candidate index-computation control flow;
* `s2_make_compare_png.py`, `s2_download_top3_and_compare.py`,
  `s2_make_rgb.py` — the per-channel percentile-stretch range selection;
* `s2_s3_download_rgb.py`, `s2_download_top3_and_compare.py` —
  `parse_s3_href`, `ensure_download`, and the manifest id-mismatch
  resolution of the download consumer.

Floating-point values are embedded as an inductive `F` (a finite rational,
an infinity, or NaN); float32 rounding/overflow is out of scope.
-/

namespace S2

/-- Embedding of a Python/numpy floating-point value: a finite rational,
`inf`, `-inf`, or NaN.  Float32 rounding and overflow are not modelled. -/
inductive F where
  | fin (q : ℚ)
  | inf
  | ninf
  | nan
deriving DecidableEq, Repr

/-- Model of `np.isfinite` on a single value. -/
def F.isFinite : F → Bool
  | .fin _ => true
  | _ => false

/-- IEEE addition on the embedded values (no overflow modelled). -/
def F.add : F → F → F
  | .nan, _ => .nan
  | _, .nan => .nan
  | .fin a, .fin b => .fin (a + b)
  | .inf, .ninf => .nan
  | .ninf, .inf => .nan
  | .inf, _ => .inf
  | _, .inf => .inf
  | .ninf, _ => .ninf
  | _, .ninf => .ninf

/-- IEEE subtraction on the embedded values (no overflow modelled). -/
def F.sub : F → F → F
  | .nan, _ => .nan
  | _, .nan => .nan
  | .fin a, .fin b => .fin (a - b)
  | .inf, .inf => .nan
  | .ninf, .ninf => .nan
  | .inf, _ => .inf
  | _, .inf => .ninf
  | .ninf, _ => .ninf
  | _, .ninf => .inf

/-- Computes elementwise `a + b` on arrays (same-shape numpy broadcast). -/
def listAdd (a b : List F) : List F := List.zipWith F.add a b

/-- Computes elementwise `a - b` on arrays (same-shape numpy broadcast). -/
def listSub (a b : List F) : List F := List.zipWith F.sub a b

/-- Elementwise body of `safe_index`: the output entry is NaN unless
`np.isfinite(num) & np.isfinite(den) & (den != 0)` holds there, in which
case it is `num / den`. -/
def safe_div (n d : F) : F :=
  match n, d with
  | F.fin a, F.fin b => if b ≠ 0 then F.fin (a / b) else F.nan
  | _, _ => F.nan

/-- Model of `s2_make_indices.safe_index`: an all-NaN array with the quotient
filled in on the valid mask. -/
def safe_index (num den : List F) : List F :=
  List.zipWith safe_div num den

/-- Model of `SCL_EXCLUDE = {0, 1, 2, 3, 7, 8, 9, 10, 11}` in `s2_make_indices.py`. -/
def SCL_EXCLUDE : List ℤ := [0, 1, 2, 3, 7, 8, 9, 10, 11]

/-- Model of `idx[np.isin(scl, list(SCL_EXCLUDE))] = np.nan`: force NaN at every
pixel whose scene-classification code is in the exclusion set. -/
def maskSCL (scl : List ℤ) (idx : List F) : List F :=
  List.zipWith (fun s v => if s ∈ SCL_EXCLUDE then F.nan else v) scl idx

/-- The manifest fields `s2_make_indices.main` inspects for one candidate:
whether `bands` lists B03/B04 and whether `index` lists B08/B11/SCL
(truthiness of `bands.get(...)` / `extra.get(...)` on line 98). -/
structure CandEntry where
  hasB03 : Bool
  hasB04 : Bool
  hasB08 : Bool
  hasB11 : Bool
  hasSCL : Bool
deriving DecidableEq, Repr

/-- What is on disk for one candidate: `some arr` models an existing band
file whose (already grid-resampled, per `read_resampled`) pixels are `arr`;
`none` models an absent file.  The SCL layer is categorical (`int16`). -/
structure DiskBands where
  b03 : Option (List F)
  b04 : Option (List F)
  b08 : Option (List F)
  b11 : Option (List F)
  scl : Option (List ℤ)
deriving DecidableEq, Repr

/-- Outcome of `s2_make_indices.main` for one candidate:
`skip` = the "required bands missing ... skip" report (manifest keys
missing), `missingBand` = the `FileNotFoundError` raised when B03/B04/B08
is absent on disk, `ok` = indices written and the success line printed;
`maskApplied` records whether the SCL exclusion mask ran. -/
inductive IndexResult where
  | skip
  | missingBand
  | ok (ndvi ndwi : List F) (mndwi : Option (List F)) (maskApplied : Bool)
deriving DecidableEq, Repr

/-- Per-candidate body of the loop in `s2_make_indices.main` (lines
90–174): skip unless the manifest lists B03, B04, B08, B11 and SCL;
raise if B03/B04/B08 is missing on disk; compute NDVI/NDWI (and MNDWI
when the B11 file exists); apply the SCL mask only when the SCL file
exists on disk. -/
def process_candidate (e : CandEntry) (d : DiskBands) : IndexResult :=
  if ¬(e.hasB03 ∧ e.hasB04 ∧ e.hasB08 ∧ e.hasB11 ∧ e.hasSCL) then .skip
  else
    match d.b03, d.b04, d.b08 with
    | some b03, some b04, some b08 =>
      let ndvi := safe_index (listSub b08 b04) (listAdd b08 b04)
      let ndwi := safe_index (listSub b03 b08) (listAdd b03 b08)
      let mndwi := d.b11.map fun b11 => safe_index (listSub b03 b11) (listAdd b03 b11)
      match d.scl with
      | some s => .ok (maskSCL s ndvi) (maskSCL s ndwi) (mndwi.map (maskSCL s)) true
      | none => .ok ndvi ndwi mndwi false
    | _, _, _ => .missingBand

/-! ## Selector model (`s2_stac_pick_cloudfree.py`) -/

/-- A STAC asset object as seen by the picker: `getattr(a, "href", None)`
(`none` or the empty string count as falsy) and its media type. -/
structure RawAsset where
  href : Option String
  media_type : Option String
deriving DecidableEq, Repr

/-- A catalog item.  `dt` is the acquisition datetime parsed by
`_to_dt_utc` (UTC seconds); `cloud` is the `eo:cloud_cover` property,
`none` standing for absent-or-unparsable (both become `float("inf")` in
`_safe_get_cloud`); `epsg` is `proj:epsg`; `assets` maps asset keys to
asset objects. -/
structure Item where
  id : String
  dt : ℤ
  cloud : Option ℚ
  epsg : Option ℤ
  assets : List (String × RawAsset)
deriving DecidableEq, Repr

/-- Model of `_safe_get_cloud`: the cloud cover, with `⊤` for `float("inf")` when
the property is absent or unparsable. -/
def safe_get_cloud (it : Item) : WithTop ℚ :=
  match it.cloud with
  | none => ⊤
  | some c => (c : WithTop ℚ)

/-- The lexicographic sort-key type of `_score_item`:
(cloud cover, |Δt| in hours, acquisition datetime). -/
abbrev ScoreKey := WithTop ℚ ×ₗ (ℚ ×ₗ ℤ)

/-- Model of `_score_item(item, target_dt)`: cloud cover ascending, then
`abs((dt - target_dt).total_seconds()) / 3600.0`, then `dt` itself as the
tie-breaker. -/
def score_item (target : ℤ) (it : Item) : ScoreKey :=
  toLex (safe_get_cloud it, toLex ((|it.dt - target| : ℚ) / 3600, it.dt))

/-- The comparison `sorted(items, key=...)` sorts by. -/
def itemLE (target : ℤ) (a b : Item) : Prop :=
  score_item target a ≤ score_item target b

instance (target : ℤ) : DecidableRel (itemLE target) :=
  fun a b => inferInstanceAs (Decidable (_ ≤ _))

instance (target : ℤ) : IsTotal Item (itemLE target) :=
  ⟨fun a b => le_total (score_item target a) (score_item target b)⟩

instance (target : ℤ) : IsTrans Item (itemLE target) :=
  ⟨fun _ _ _ h₁ h₂ => le_trans h₁ h₂⟩

/-- Model of `sorted(items, key=lambda x: _score_item(x, target_dt))`.  Python's
`sorted` is a stable sort on a total-preorder key; a stable insertion
sort on the same key produces the identical sequence. -/
def rankItems (target : ℤ) (items : List Item) : List Item :=
  items.insertionSort (itemLE target)

/-- Model of Python slicing `l[:k]` for an `int` bound `k` (a negative bound drops
the last `|k|` elements). -/
def pyTake (l : List α) (k : ℤ) : List α :=
  if 0 ≤ k then l.take k.toNat else l.take ((l.length : ℤ) + k).toNat

/-- Model of `PickConfig` (the fields the selection logic reads). -/
structure PickConfig where
  window_days : ℤ
  cloud_lt : ℚ
  max_items : ℕ
deriving DecidableEq, Repr

/-- The escalation tiers built at the top of `pick_topk_items`:
`[(window_days, cloud_lt), (max(window_days, 5), max(cloud_lt, 40.0)),
(max(window_days, 10), 100.0)]`. -/
def plan (cfg : PickConfig) : List (ℤ × ℚ) :=
  [(cfg.window_days, cfg.cloud_lt),
   (max cfg.window_days 5, max cfg.cloud_lt 40),
   (max cfg.window_days 10, 100)]

/-- Resolved asset reference (the `{"key", "href", "type"}` dict built by
the `get`/`pick_s2_*` helpers). -/
structure AssetRef where
  key : String
  href : String
  mtype : Option String
deriving DecidableEq, Repr

/-- The inner `get(key)` helper of `pick_s2_rgb_bands` /
`pick_s2_index_assets` (and the body of `pick_s2_tci_asset`): a resolved
reference when the asset exists and its href is truthy. -/
def assetGet (it : Item) (key : String) : Option AssetRef :=
  match it.assets.lookup key with
  | some a =>
    match a.href with
    | some h => if h ≠ "" then some ⟨key, h, a.media_type⟩ else none
    | none => none
  | none => none

/-- Model of `pick_s2_tci_asset`. -/
def pick_s2_tci_asset (it : Item) : Option AssetRef :=
  assetGet it "TCI_10m"

/-- The three 10 m true-colour bands; `pick_s2_rgb_bands` yields `None`
unless all three resolve. -/
structure RgbBands where
  B02 : AssetRef
  B03 : AssetRef
  B04 : AssetRef
deriving DecidableEq, Repr

/-- Model of `pick_s2_rgb_bands`. -/
def pick_s2_rgb_bands (it : Item) : Option RgbBands :=
  match assetGet it "B02_10m", assetGet it "B03_10m", assetGet it "B04_10m" with
  | some b2, some b3, some b4 => some ⟨b2, b3, b4⟩
  | _, _, _ => none

/-- Index-support assets; `pick_s2_index_assets` requires only B08, with
B11 and SCL as optional enrichments. -/
structure IndexAssets where
  B08 : AssetRef
  B11 : Option AssetRef
  SCL : Option AssetRef
deriving DecidableEq, Repr

/-- Model of `pick_s2_index_assets`. -/
def pick_s2_index_assets (it : Item) : Option IndexAssets :=
  (assetGet it "B08_10m").map fun b8 =>
    ⟨b8, assetGet it "B11_20m", assetGet it "SCL_20m"⟩

/-- One entry of `candidates_topk` (the raw `datetime` string is modelled
by the parsed value `dt`). -/
structure Summary where
  id : String
  dt : ℤ
  cloud : Option ℚ
  epsg : Option ℤ
deriving DecidableEq, Repr

/-- Builds the `{"id", "datetime", "eo:cloud_cover", "proj:epsg"}` summary dict. -/
def summarize (it : Item) : Summary :=
  ⟨it.id, it.dt, it.cloud, it.epsg⟩

/-- One entry of `candidates_topk_rgb_assets`. -/
structure Bundle where
  id : String
  tci : Option AssetRef
  bands : Option RgbBands
  index : Option IndexAssets
deriving DecidableEq, Repr

/-- Builds the `{"id", "tci", "bands", "index"}` asset-bundle dict. -/
def mkBundle (it : Item) : Bundle :=
  ⟨it.id, pick_s2_tci_asset it, pick_s2_rgb_bands it, pick_s2_index_assets it⟩

/-- The value returned by `pick_topk_items`: either the `status: "ok"`
record (with the `(window_days, cloud_lt)` of the tier used) or the
`status: "no_items"` record.  The `no_items` reason string
`f"No items in ±{w} days with eo:cloud_cover < {c}"` is determined by the
tier pair, so it is modelled as `some (w, c)`; `none` models the
`"No items found"` fallback. -/
inductive PickResult where
  | ok (search_used : ℤ × ℚ) (candidates_topk : List Summary)
      (candidates_topk_rgb_assets : List Bundle)
  | no_items (reason : Option (ℤ × ℚ))
deriving DecidableEq, Repr

/-- The tier loop of `pick_topk_items`.  The catalog search is the
injected collaborator `search` (a function of the tier's window and cloud
ceiling; the datetime range sent to the server is a function of the
target date and the window).  The item-collection loop appends one item
and then breaks once `len(items) >= cfg.max_items`, so it keeps
`max cfg.max_items 1` items. -/
def pickLoop (search : ℤ → ℚ → List Item) (target : ℤ) (cfg : PickConfig)
    (k : ℤ) : List (ℤ × ℚ) → Option (ℤ × ℚ) → PickResult
  | [], last => .no_items last
  | (w, c) :: rest, _last =>
    match (search w c).take (max cfg.max_items 1) with
    | [] => pickLoop search target cfg k rest (some (w, c))
    | x :: xs =>
      let items_sorted := rankItems target (x :: xs)
      .ok (w, c) ((pyTake items_sorted k).map summarize)
        ((pyTake items_sorted k).map mkBundle)

/-- Model of `pick_topk_items(client, target_date, cfg, k)`. -/
def pick_topk_items (search : ℤ → ℚ → List Item) (target : ℤ)
    (cfg : PickConfig) (k : ℤ) : PickResult :=
  pickLoop search target cfg k (plan cfg) none

/-- Consumer-side id resolution in `s2_s3_download_rgb.main` (lines
89–93): `if entry.get("id") and entry["id"] != item_id:` report the
mismatch and use the asset entry's own id for everything that follows.
Returns the id used for path construction and whether a mismatch was
reported. -/
def resolve_item_id (item_id : String) (entry_id : Option String) :
    String × Bool :=
  match entry_id with
  | some e => if e ≠ "" ∧ e ≠ item_id then (e, true) else (item_id, false)
  | none => (item_id, false)

/-! ## Percentile stretch (`normalize_rgb_uint8`, `percentile_stretch`)

Channels are embedded as `List (Option ℚ)`: `some q` a finite pixel,
`none` a NaN pixel (infinities do not arise in these rasters and are out
of scope). -/

/-- Model of `np.percentile(vs, q)` with the default linear interpolation;
`none` models the exception numpy raises on an empty input. -/
def npPercentile (vs : List ℚ) (q : ℚ) : Option ℚ :=
  let s := vs.insertionSort (· ≤ ·)
  if s.length = 0 then none
  else
    let rank := q * ((s.length : ℚ) - 1) / 100
    let i := (⌊rank⌋).toNat
    let frac := rank - ⌊rank⌋
    let lower := s.getD i 0
    let upper := s.getD (min (i + 1) (s.length - 1)) 0
    some (lower + frac * (upper - lower))

/-- Model of `np.min` of a vector (`none` = the exception on an empty input). -/
def npMin : List ℚ → Option ℚ
  | [] => none
  | x :: xs => some (xs.foldl min x)

/-- Model of `np.max` of a vector (`none` = the exception on an empty input). -/
def npMax : List ℚ → Option ℚ
  | [] => none
  | x :: xs => some (xs.foldl max x)

/-- Model of `np.clip(v, lo, hi)`. -/
def npClip (v lo hi : ℚ) : ℚ := min (max v lo) hi

/-- The finite (non-NaN) pixels of a channel: `chan[np.isfinite(chan)]`. -/
def finiteVals (chan : List (Option ℚ)) : List ℚ := chan.filterMap id

/-- The strictly positive finite pixels:
`chan[np.isfinite(chan) & (chan > 0)]`. -/
def posVals (chan : List (Option ℚ)) : List ℚ :=
  (finiteVals chan).filter (fun x => 0 < x)

/-- First-stage percentile range of `s2_make_compare_png.normalize_rgb_uint8`
(lines 28–33): percentiles of the positive pixels, falling back to the
percentiles of all finite pixels when fewer than 100 positive samples
exist, and to `(0.0, 1.0)` when there is no finite pixel at all. -/
def lohiP_compare (chan : List (Option ℚ)) : ℚ × ℚ :=
  if (posVals chan).length < 100 then
    match npPercentile (finiteVals chan) 2, npPercentile (finiteVals chan) 98 with
    | some l, some h => (l, h)
    | _, _ => (0, 1)
  else
    (match npPercentile (posVals chan) 2 with | some l => l | none => 0,
     match npPercentile (posVals chan) 98 with | some h => h | none => 0)

/-- Per-channel range selection of `s2_make_compare_png.normalize_rgb_uint8`
(lines 28–39): on a degenerate percentile range retry with
`[min(v), max(v)]` (or `[0.0, 1.0]` when `v` is empty), and finally widen
to `[lo, lo + 1]`. -/
def lohi_compare (chan : List (Option ℚ)) : ℚ × ℚ :=
  let p := lohiP_compare chan
  if p.2 ≤ p.1 then
    let l := match npMin (posVals chan) with | some m => m | none => 0
    let h := match npMax (posVals chan) with | some m => m | none => 1
    if h ≤ l then (l, l + 1) else (l, h)
  else p

/-- Per-channel range selection of
`s2_download_top3_and_compare.normalize_rgb_uint8` (lines 53–64).
`none` models a raised exception.  `lohiP_top3` is the percentile stage
(`none` = `np.percentile` of an empty vector raising in the
`v.size < 100` branch); `lohi_top3` adds the degenerate-range retry,
where `np.min(v)` of an empty `v` raises (only `np.max` is guarded by
`if v.size`). -/
def lohiP_top3 (chan : List (Option ℚ)) : Option (ℚ × ℚ) :=
  if (posVals chan).length < 100 then
    match npPercentile (finiteVals chan) 2, npPercentile (finiteVals chan) 98 with
    | some l, some h => some (l, h)
    | _, _ => none
  else
    some (match npPercentile (posVals chan) 2 with | some l => l | none => 0,
          match npPercentile (posVals chan) 98 with | some h => h | none => 0)

/-- Remainder of the per-channel range selection of
`s2_download_top3_and_compare.normalize_rgb_uint8` after the percentile
stage `lohiP_top3`. -/
def lohi_top3 (chan : List (Option ℚ)) : Option (ℚ × ℚ) :=
  match lohiP_top3 chan with
  | none => none
  | some (l, h) =>
    if h ≤ l then
      match npMin (posVals chan) with
      | none => none
      | some m =>
        let h2 := match npMax (posVals chan) with | some mx => mx | none => 1
        if h2 ≤ m then some (m, m + 1) else some (m, h2)
    else some (l, h)

/-- Model of `np.nanpercentile(x, q)` (`none` = NaN result when no finite pixel
exists). -/
def nanpercentile (x : List (Option ℚ)) (q : ℚ) : Option ℚ :=
  npPercentile (finiteVals x) q

/-- The test `not np.isfinite(lo) or not np.isfinite(hi) or hi <= lo` of
`s2_make_rgb.percentile_stretch`. -/
def degenerateRange (lo hi : Option ℚ) : Bool :=
  match lo, hi with
  | some l, some h => h ≤ l
  | _, _ => true

/-- The range `s2_make_rgb.percentile_stretch` divides by: the 2/98
nan-percentiles, retried as `[nanmin, nanmax]`, and `none` when even the
retry is degenerate (the function then returns `np.zeros_like(x)`). -/
def ps_lohi (x : List (Option ℚ)) : Option (ℚ × ℚ) :=
  let lo := nanpercentile x 2
  let hi := nanpercentile x 98
  if degenerateRange lo hi then
    let lo2 := npMin (finiteVals x)
    let hi2 := npMax (finiteVals x)
    if degenerateRange lo2 hi2 then none
    else match lo2, hi2 with
      | some l, some h => some (l, h)
      | _, _ => none
  else match lo, hi with
    | some l, some h => some (l, h)
    | _, _ => none

/-- Model of `s2_make_rgb.percentile_stretch(x, 2.0, 98.0)` (NaN pixels map to
NaN through the arithmetic and `np.clip`; the doubly-degenerate case
returns an all-zero array). -/
def percentile_stretch (x : List (Option ℚ)) : List (Option ℚ) :=
  match ps_lohi x with
  | none => x.map fun _ => some 0
  | some (lo, hi) => x.map (Option.map fun a => npClip ((a - lo) / (hi - lo)) 0 1)

/-- Follows the spec's words for claim C8 (not the source): on a
degenerate percentile range the stretch widens the range to
`[min, min + 1]` and applies the linear map with that range. -/
def percentile_stretch_specWiden (x : List (Option ℚ)) : List (Option ℚ) :=
  let lo := nanpercentile x 2
  let hi := nanpercentile x 98
  match (if degenerateRange lo hi then
           (npMin (finiteVals x)).map fun m => (m, m + 1)
         else match lo, hi with
           | some l, some h => some (l, h)
           | _, _ => none) with
  | none => x.map fun _ => some 0
  | some (l, h) => x.map (Option.map fun a => npClip ((a - l) / (h - l)) 0 1)

/-! ## Download step (`ensure_download`) -/

/-- The parsed pieces of a URL as `urllib.parse.urlparse` returns them
(the external parser is treated as a collaborator producing this
record). -/
structure Url where
  scheme : String
  netloc : String
  path : String
deriving DecidableEq, Repr

/-- Model of `parse_s3_href` (identical in `s2_s3_download_rgb.py` and
`s2_download_top3_and_compare.py`): `(bucket, key)` for an `s3://` href,
`ValueError` otherwise. -/
def parse_s3_href (u : Url) : Except String (String × String) :=
  if u.scheme = "s3" then .ok (u.netloc, List.asString (u.path.toList.dropWhile (· = '/')))
  else .error "Not an s3:// href"

/-- Local file state (path ↦ size in bytes) plus a count of object-store
download calls performed. -/
structure DLState where
  fs : List (String × ℕ)
  network_calls : ℕ
deriving DecidableEq, Repr

/-- Model of `ensure_download(s3, href, out_path)` (identical in
`s2_s3_download_rgb.py` lines 29–36 and `s2_download_top3_and_compare.py`
lines 94–101): parse the href, and return untouched when a non-empty file
already sits at `out_path`; otherwise call `s3.download_file`, whose
written size is given by the collaborator `remote`.  Directory creation
(`mkdir`) touches no files and is not modelled. -/
def ensure_download (remote : String → String → ℕ) (st : DLState)
    (href : Url) (out_path : String) : Except String DLState :=
  match parse_s3_href href with
  | .error e => .error e
  | .ok (bucket, key) =>
    match st.fs.lookup out_path with
    | some sz =>
      if 0 < sz then .ok st
      else .ok ⟨(out_path, remote bucket key) :: st.fs, st.network_calls + 1⟩
    | none => .ok ⟨(out_path, remote bucket key) :: st.fs, st.network_calls + 1⟩

/-- Running the download stage over a job list (one `ensure_download` per
(href, destination) pair, stopping at the first raised error). -/
def run_downloads (remote : String → String → ℕ)
    (jobs : List (Url × String)) (st : DLState) : Except String DLState :=
  jobs.foldlM (fun s job => ensure_download remote s job.1 job.2) st

end S2




namespace S2

/-! ## Theorems -/

/-- C2 counterexample: `safe_index` divides its first argument by its
second, so `safe_index([8],[4])` is `[2.0]`, not
`[(8-4)/(8+4)] = [0.333…]` as the claim states. -/
theorem C2_counterexample :
    safe_index [F.fin 8] [F.fin 4] = [F.fin 2] ∧
      (F.fin 2 : F) ≠ F.fin (((8 : ℚ) - 4) / (8 + 4)) := by
  constructor
  · norm_num [safe_index, safe_div]
  · intro h
    rw [F.fin.injEq] at h
    norm_num at h

/-- C2 (amended): `safe_index(num, den)` works elementwise and totally
(never raising): the entry is NaN exactly where the numerator or the
denominator is non-finite or the denominator is zero, and `num/den`
elsewhere; composing it with a difference and a sum — as the pipeline's
calls `safe_index(a-b, a+b)` do — yields the normalized difference
`(a-b)/(a+b)` with NaN exactly where `a+b == 0`; in particular
`safe_index([10],[0]) == [NaN]` and `safe_index([8],[4]) == [2.0]`. -/
theorem C2_safe_index_semantics :
    (∀ num den : List F, (safe_index num den).length = min num.length den.length) ∧
    (∀ (num den : List F) (i : ℕ) (h : i < (safe_index num den).length),
      (safe_index num den).get ⟨i, h⟩ =
        safe_div (num.get ⟨i, List.lt_length_left_of_zipWith h⟩)
          (den.get ⟨i, List.lt_length_right_of_zipWith h⟩)) ∧
    (∀ n d : F, n.isFinite = false ∨ d.isFinite = false ∨ d = F.fin 0 →
      safe_div n d = F.nan) ∧
    (∀ a b : ℚ, b ≠ 0 → safe_div (F.fin a) (F.fin b) = F.fin (a / b)) ∧
    (∀ a b : ℚ, safe_div (F.fin (a - b)) (F.fin (a + b)) =
      if a + b = 0 then F.nan else F.fin ((a - b) / (a + b))) ∧
    safe_index [F.fin 10] [F.fin 0] = [F.nan] ∧
    safe_index [F.fin 8] [F.fin 4] = [F.fin 2] := by
  refine ⟨fun num den => List.length_zipWith .., ?_, ?_, ?_, ?_, ?_, ?_⟩
  · intro num den i h
    simp [safe_index, List.get_eq_getElem, List.getElem_zipWith]
  · rintro n d (hn | hd | h0)
    · cases n <;> simp_all [F.isFinite, safe_div]
    · cases d <;> simp_all [F.isFinite, safe_div] <;> cases n <;> rfl
    · subst h0; cases n <;> simp [safe_div]
  · intro a b hb
    simp [safe_div, hb]
  · intro a b
    by_cases h : a + b = 0 <;> simp [safe_div, h]
  · norm_num [safe_index, safe_div]
  · norm_num [safe_index, safe_div]

/-- C2 witness: the amended characterization evaluated at concrete inputs
(entry 0 of `safe_index([8],[4])`, a NaN numerator, the quotient `1/2`,
and the composed normalized difference at `a = 3`, `b = 1`). -/
theorem C2_safe_index_semantics_witness :
    (safe_index [F.fin 8] [F.fin 4]).get ⟨0, by norm_num [safe_index, safe_div]⟩ =
        safe_div (F.fin 8) (F.fin 4) ∧
      safe_div F.nan (F.fin 1) = F.nan ∧
      safe_div (F.fin 1) (F.fin 2) = F.fin (1 / 2) ∧
      safe_div (F.fin ((3 : ℚ) - 1)) (F.fin (3 + 1)) =
        if (3 : ℚ) + 1 = 0 then F.nan else F.fin ((3 - 1) / (3 + 1)) :=
  ⟨C2_safe_index_semantics.2.1 [F.fin 8] [F.fin 4] 0 (by norm_num [safe_index, safe_div]),
    C2_safe_index_semantics.2.2.1 F.nan (F.fin 1) (Or.inl rfl),
    C2_safe_index_semantics.2.2.2.1 1 2 (by norm_num),
    C2_safe_index_semantics.2.2.2.2.1 3 1⟩

/-- C3 counterexample: starting from `cloud_lt = 150` the tier sequence is
`[(3, 150), (5, 150), (10, 100)]`, whose cloud ceiling decreases at the
last step, so the tiers are not monotonically non-decreasing in both
components for every starting criteria. -/
theorem C3_counterexample :
    ¬ List.Chain' (fun p q : ℤ × ℚ => p.1 ≤ q.1 ∧ p.2 ≤ q.2)
      (plan ⟨3, 150, 200⟩) := by
  norm_num [plan, List.chain'_cons]

/-- C3 (amended): the escalation tiers never shrink the half-window, and
when the starting cloud ceiling is at most 100 (cloud cover is a
percentage) they are monotonically non-decreasing in both components. -/
theorem C3_plan_monotone (cfg : PickConfig) :
    List.Chain' (fun p q : ℤ × ℚ => p.1 ≤ q.1) (plan cfg) ∧
      (cfg.cloud_lt ≤ 100 →
        List.Chain' (fun p q : ℤ × ℚ => p.1 ≤ q.1 ∧ p.2 ≤ q.2) (plan cfg)) := by
  constructor
  · simp only [plan, List.chain'_cons, List.chain'_singleton, and_true]
    exact ⟨le_max_left _ _, max_le_max le_rfl (by norm_num)⟩
  · intro h
    simp only [plan, List.chain'_cons, List.chain'_singleton, and_true]
    exact ⟨⟨le_max_left _ _, le_max_left _ _⟩,
      max_le_max le_rfl (by norm_num), max_le (h.trans le_rfl) (by norm_num)⟩

/-- C3 witness: full two-component monotonicity at the defaults
`window_days = 3`, `cloud_lt = 20`. -/
theorem C3_plan_monotone_witness :
    List.Chain' (fun p q : ℤ × ℚ => p.1 ≤ q.1 ∧ p.2 ≤ q.2)
      (plan ⟨3, 20, 200⟩) :=
  (C3_plan_monotone ⟨3, 20, 200⟩).2 (by norm_num)

/-- C7: the SCL exclusion mask forces NaN at exactly the pixels whose
class code lies in `SCL_EXCLUDE` and keeps the pre-mask value elsewhere,
and when the SCL layer is present the index stage applies it to NDVI,
NDWI, and (when computed) MNDWI. -/
theorem C7_scl_mask :
    (∀ (scl : List ℤ) (idx : List F) (i : ℕ) (h : i < (maskSCL scl idx).length),
      (maskSCL scl idx).get ⟨i, h⟩ =
        if scl.get ⟨i, List.lt_length_left_of_zipWith h⟩ ∈ SCL_EXCLUDE then F.nan
        else idx.get ⟨i, List.lt_length_right_of_zipWith h⟩) ∧
    (∀ (e : CandEntry) (d : DiskBands) (b03 b04 b08 : List F) (s : List ℤ),
      e.hasB03 = true → e.hasB04 = true → e.hasB08 = true → e.hasB11 = true →
      e.hasSCL = true → d.b03 = some b03 → d.b04 = some b04 → d.b08 = some b08 →
      d.scl = some s →
      process_candidate e d =
        .ok (maskSCL s (safe_index (listSub b08 b04) (listAdd b08 b04)))
          (maskSCL s (safe_index (listSub b03 b08) (listAdd b03 b08)))
          ((d.b11.map fun b11 =>
            safe_index (listSub b03 b11) (listAdd b03 b11)).map (maskSCL s))
          true) := by
  constructor
  · intro scl idx i h
    simp [maskSCL, List.get_eq_getElem, List.getElem_zipWith]
  · intro e d b03 b04 b08 s h3 h4 h8 h11 hscl hd3 hd4 hd8 hdscl
    simp [process_candidate, h3, h4, h8, h11, hscl, hd3, hd4, hd8, hdscl]

/-- C7 witness: the mask at a cloud pixel (code 9) and a clear pixel
(code 4), and one concrete masked candidate. -/
theorem C7_scl_mask_witness :
    (maskSCL [9, 4] [F.fin 1, F.fin 1]).get ⟨0, by norm_num [maskSCL]⟩ =
        (if (9 : ℤ) ∈ SCL_EXCLUDE then F.nan else F.fin 1) ∧
      process_candidate ⟨true, true, true, true, true⟩
          ⟨some [F.fin 1], some [F.fin 1], some [F.fin 1], none, some [9]⟩ =
        .ok (maskSCL [9] (safe_index (listSub [F.fin 1] [F.fin 1])
              (listAdd [F.fin 1] [F.fin 1])))
          (maskSCL [9] (safe_index (listSub [F.fin 1] [F.fin 1])
              (listAdd [F.fin 1] [F.fin 1])))
          ((Option.map (fun b11 =>
              safe_index (listSub [F.fin 1] b11) (listAdd [F.fin 1] b11))
            (none : Option (List F))).map (maskSCL [9]))
          true := by
  constructor
  · have := C7_scl_mask.1 [9, 4] [F.fin 1, F.fin 1] 0 (by norm_num [maskSCL])
    simpa using this
  · exact C7_scl_mask.2 ⟨true, true, true, true, true⟩
      ⟨some [F.fin 1], some [F.fin 1], some [F.fin 1], none, some [9]⟩
      [F.fin 1] [F.fin 1] [F.fin 1] [9] rfl rfl rfl rfl rfl rfl rfl rfl rfl

/-- C10: when the manifest lists all five band references but the SCL
file is absent on disk (only B03/B04/B08 are existence-checked), the
index stage still computes and saves NDVI and NDWI with no exclusion
mask applied, reporting no failure for that candidate. -/
theorem C10_missing_scl_file_silent :
    ∀ (e : CandEntry) (d : DiskBands) (b03 b04 b08 : List F),
      e.hasB03 = true → e.hasB04 = true → e.hasB08 = true → e.hasB11 = true →
      e.hasSCL = true → d.b03 = some b03 → d.b04 = some b04 → d.b08 = some b08 →
      d.scl = none →
      process_candidate e d =
        .ok (safe_index (listSub b08 b04) (listAdd b08 b04))
          (safe_index (listSub b03 b08) (listAdd b03 b08))
          (d.b11.map fun b11 => safe_index (listSub b03 b11) (listAdd b03 b11))
          false := by
  intro e d b03 b04 b08 h3 h4 h8 h11 hscl hd3 hd4 hd8 hdscl
  simp [process_candidate, h3, h4, h8, h11, hscl, hd3, hd4, hd8, hdscl]

/-- C10 witness: a candidate with every manifest reference present, the
three required band files on disk, and no SCL (or B11) file: the result
is a success with unmasked indices. -/
theorem C10_missing_scl_file_silent_witness :
    process_candidate ⟨true, true, true, true, true⟩
        ⟨some [F.fin 2], some [F.fin 1], some [F.fin 3], none, none⟩ =
      .ok (safe_index (listSub [F.fin 3] [F.fin 1]) (listAdd [F.fin 3] [F.fin 1]))
        (safe_index (listSub [F.fin 2] [F.fin 3]) (listAdd [F.fin 2] [F.fin 3]))
        ((none : Option (List F)).map fun b11 =>
          safe_index (listSub [F.fin 2] b11) (listAdd [F.fin 2] b11))
        false :=
  C10_missing_scl_file_silent ⟨true, true, true, true, true⟩
    ⟨some [F.fin 2], some [F.fin 1], some [F.fin 3], none, none⟩
    [F.fin 2] [F.fin 1] [F.fin 3] rfl rfl rfl rfl rfl rfl rfl rfl rfl

end S2

namespace S2

/-- Fixture: two catalog items with identical acquisition time and cloud
cover but different ids. -/
def itemA : Item := ⟨"a", 0, some 5, none, []⟩

/-- Fixture: see `itemA`. -/
def itemB : Item := ⟨"b", 0, some 5, none, []⟩

/-- Fixture: a `PickConfig` with the source's default criteria. -/
def cfgA : PickConfig := ⟨3, 20, 200⟩

/-- Any `ok` result of the tier loop carries a top-k summary list and a
top-k asset-bundle list mapped off one and the same item list. -/
theorem pickLoop_ok_inv (search : ℤ → ℚ → List Item) (target : ℤ)
    (cfg : PickConfig) (k : ℤ) :
    ∀ (tiers : List (ℤ × ℚ)) (last : Option (ℤ × ℚ)) (w : ℤ) (c : ℚ)
      (tk : List Summary) (tb : List Bundle),
      pickLoop search target cfg k tiers last = .ok (w, c) tk tb →
      ∃ items : List Item,
        tk = (pyTake (rankItems target items) k).map summarize ∧
          tb = (pyTake (rankItems target items) k).map mkBundle := by
  intro tiers
  induction tiers with
  | nil =>
    intro last w c tk tb h
    simp [pickLoop] at h
  | cons t rest ih =>
    intro last w c tk tb h
    obtain ⟨w', c'⟩ := t
    rw [pickLoop] at h
    revert h
    cases hitems : (search w' c').take (max cfg.max_items 1) with
    | nil =>
      intro h
      exact ih _ w c tk tb h
    | cons x xs =>
      intro h
      rw [PickResult.ok.injEq] at h
      exact ⟨x :: xs, h.2.1.symm, h.2.2.symm⟩

/-- C4 counterexample: `pick_topk_items` called with `k = 0` on a catalog
with one item returns a normal `status: "ok"` result (with empty
candidate lists) — no input validation fails fast. -/
theorem C4_counterexample :
    pick_topk_items (fun _ _ => [itemA]) 0 cfgA 0 = .ok (3, 20) [] [] := by
  norm_num [pick_topk_items, pickLoop, plan, rankItems, pyTake, cfgA,
    List.insertionSort, List.orderedInsert]

/-- C4 (amended): `K ≤ 0` is never validated and never fails fast: the
selector returns a normal result, and in particular a `K = 0` call whose
successful tier found items returns `status: "ok"` with empty candidate
and asset lists. -/
theorem C4_k_zero_normal_result :
    ∀ (search : ℤ → ℚ → List Item) (target : ℤ) (cfg : PickConfig)
      (w : ℤ) (c : ℚ) (tk : List Summary) (tb : List Bundle),
      pick_topk_items search target cfg 0 = .ok (w, c) tk tb →
      tk = [] ∧ tb = [] := by
  intro search target cfg w c tk tb h
  obtain ⟨items, htk, htb⟩ := pickLoop_ok_inv search target cfg 0 _ _ w c tk tb h
  simp [pyTake] at htk htb
  exact ⟨htk, htb⟩

/-- C4 witness: the amended statement applied at the counterexample's
concrete input. -/
theorem C4_k_zero_normal_result_witness :
    pick_topk_items (fun _ _ => [itemA]) 0 cfgA 0 = .ok (3, 20) [] [] ∧
      ([] : List Summary) = [] ∧ ([] : List Bundle) = [] := by
  have h : pick_topk_items (fun _ _ => [itemA]) 0 cfgA 0 = .ok (3, 20) [] [] := by
    norm_num [pick_topk_items, pickLoop, plan, rankItems, pyTake, cfgA,
      List.insertionSort, List.orderedInsert]
  exact ⟨h, C4_k_zero_normal_result (fun _ _ => [itemA]) 0 cfgA 3 20 [] [] h⟩

/-- C5: when every escalation tier's search comes back empty, the
selector returns `status: "no_items"` carrying the last tier's failure
reason (window `max(window_days, 10)`, ceiling 100) and raises nothing. -/
theorem C5_all_tiers_empty_no_items :
    ∀ (search : ℤ → ℚ → List Item) (target : ℤ) (cfg : PickConfig) (k : ℤ),
      (∀ wc ∈ plan cfg, search wc.1 wc.2 = []) →
      pick_topk_items search target cfg k =
        .no_items (some (max cfg.window_days 10, 100)) := by
  intro search target cfg k h
  have h1 := h (cfg.window_days, cfg.cloud_lt) (by simp [plan])
  have h2 := h (max cfg.window_days 5, max cfg.cloud_lt 40) (by simp [plan])
  have h3 := h (max cfg.window_days 10, 100) (by simp [plan])
  simp only [pick_topk_items, plan, pickLoop, h1, h2, h3, List.take_nil]

/-- C5 witness: an always-empty catalog at the default criteria. -/
theorem C5_all_tiers_empty_no_items_witness :
    pick_topk_items (fun _ _ => []) 0 cfgA 2 =
      .no_items (some (max (3 : ℤ) 10, 100)) :=
  C5_all_tiers_empty_no_items (fun _ _ => []) 0 cfgA 2 (fun _ _ => rfl)

/-- C6: in every `ok` result the candidate list and the asset-bundle list
are index-aligned — equal lengths and, at each position, equal item
identifiers — and the download consumer, on seeing a (non-empty)
identifier mismatch at a position, reports it and adopts the asset
bundle's own identifier for path construction. -/
theorem C6_manifest_alignment :
    (∀ (search : ℤ → ℚ → List Item) (target : ℤ) (cfg : PickConfig) (k : ℤ)
      (w : ℤ) (c : ℚ) (tk : List Summary) (tb : List Bundle),
      pick_topk_items search target cfg k = .ok (w, c) tk tb →
      tk.length = tb.length ∧
        ∀ (i : ℕ) (h1 : i < tk.length) (h2 : i < tb.length),
          (tk.get ⟨i, h1⟩).id = (tb.get ⟨i, h2⟩).id) ∧
    (∀ item_id e : String, e ≠ "" → e ≠ item_id →
      resolve_item_id item_id (some e) = (e, true)) := by
  constructor
  · intro search target cfg k w c tk tb h
    obtain ⟨items, htk, htb⟩ := pickLoop_ok_inv search target cfg k _ _ w c tk tb h
    subst htk htb
    refine ⟨by simp, ?_⟩
    intro i h1 h2
    simp [summarize, mkBundle]
  · intro item_id e he hne
    simp [resolve_item_id, he, hne]

/-- C6 witness: alignment of a concrete two-item pick, and the consumer
adopting a mismatching bundle id. -/
theorem C6_manifest_alignment_witness :
    (([summarize itemA, summarize itemB].get
          ⟨0, by norm_num⟩).id =
        ([mkBundle itemA, mkBundle itemB].get ⟨0, by norm_num⟩).id) ∧
      resolve_item_id "a" (some "b") = ("b", true) := by
  constructor
  · have hpick : pick_topk_items (fun _ _ => [itemA, itemB]) 0 cfgA 2 =
        .ok (3, 20) [summarize itemA, summarize itemB]
          [mkBundle itemA, mkBundle itemB] := by
      norm_num [pick_topk_items, pickLoop, plan, rankItems, pyTake, cfgA,
        itemA, itemB, List.insertionSort, List.orderedInsert, itemLE,
        score_item, safe_get_cloud]
    exact (C6_manifest_alignment.1 (fun _ _ => [itemA, itemB]) 0 cfgA 2
      3 20 _ _ hpick).2 0 (by norm_num) (by norm_num)
  · exact C6_manifest_alignment.2 "a" "b" (by decide) (by decide)

end S2

namespace S2

/-- The ranked candidate pool is sorted by the score key. -/
theorem rankItems_sorted (target : ℤ) (items : List Item) :
    List.Sorted (itemLE target) (rankItems target items) :=
  List.sorted_insertionSort (itemLE target) items

/-- Ranking permutes the candidate pool. -/
theorem rankItems_perm (target : ℤ) (items : List Item) :
    List.Perm (rankItems target items) items :=
  List.perm_insertionSort (itemLE target) items

/-- A list sorted by the (non-strict) score order whose scores are
pairwise distinct is sorted by the strict score order. -/
theorem sorted_strict_of_nodup (target : ℤ) {l : List Item}
    (hs : List.Sorted (itemLE target) l)
    (hn : (l.map (score_item target)).Nodup) :
    List.Sorted (fun a b => score_item target a < score_item target b) l := by
  have hne : l.Pairwise fun a b => score_item target a ≠ score_item target b :=
    List.pairwise_map.mp hn
  exact (hs.and hne).imp fun h => lt_of_le_of_ne h.1 h.2

/-- When no two items of the pool share a score key, ranking the reversed
pool gives the identical sequence. -/
theorem rankItems_reverse_eq (target : ℤ) (items : List Item)
    (h : (items.map (score_item target)).Nodup) :
    rankItems target items.reverse = rankItems target items := by
  have p1 : List.Perm (rankItems target items.reverse) items :=
    (rankItems_perm target items.reverse).trans items.reverse_perm
  have p2 : List.Perm (rankItems target items) items := rankItems_perm target items
  have hn1 : ((rankItems target items.reverse).map (score_item target)).Nodup :=
    ((p1.map (score_item target)).nodup_iff).mpr h
  have hn2 : ((rankItems target items).map (score_item target)).Nodup :=
    ((p2.map (score_item target)).nodup_iff).mpr h
  haveI : IsAntisymm Item (fun a b => score_item target a < score_item target b) :=
    ⟨fun _ _ h1 h2 => absurd (h1.trans h2) (lt_irrefl _)⟩
  exact List.eq_of_perm_of_sorted (p1.trans p2.symm)
    (sorted_strict_of_nodup target (rankItems_sorted target items.reverse) hn1)
    (sorted_strict_of_nodup target (rankItems_sorted target items) hn2)

/-- Tier loop congruence: reversing every tier's catalog response changes
nothing when scores are distinct and the pool fits under the local cap. -/
theorem pickLoop_reverse (search : ℤ → ℚ → List Item) (target : ℤ)
    (cfg : PickConfig) (k : ℤ)
    (hnodup : ∀ w c, ((search w c).map (score_item target)).Nodup)
    (hlen : ∀ w c, (search w c).length ≤ max cfg.max_items 1) :
    ∀ (tiers : List (ℤ × ℚ)) (last : Option (ℤ × ℚ)),
      pickLoop (fun w c => (search w c).reverse) target cfg k tiers last =
        pickLoop search target cfg k tiers last := by
  intro tiers
  induction tiers with
  | nil => intro last; rfl
  | cons t rest ih =>
    intro last
    obtain ⟨w, c⟩ := t
    have htake : (search w c).take (max cfg.max_items 1) = search w c :=
      List.take_of_length_le (hlen w c)
    have htake' : (search w c).reverse.take (max cfg.max_items 1) =
        (search w c).reverse :=
      List.take_of_length_le (by simpa using hlen w c)
    simp only [pickLoop]
    rw [htake, htake']
    cases hsc : search w c with
    | nil => simpa [hsc] using ih (some (w, c))
    | cons x xs =>
      have hrevne : (x :: xs).reverse ≠ [] := by simp
      cases hrev : (x :: xs).reverse with
      | nil => exact absurd hrev hrevne
      | cons y ys =>
        have hre : rankItems target (y :: ys) = rankItems target (x :: xs) := by
          rw [← hrev]
          exact rankItems_reverse_eq target (x :: xs) (hsc ▸ hnodup w c)
        simp only [hre]

/-- C1 counterexample: two items sharing timestamp and cloud cover but
with different ids swap places when the input order is reversed, so the
output sequence is not identical under input reversal. -/
theorem C1_counterexample :
    pick_topk_items (fun _ _ => [itemB, itemA]) 0 cfgA 2 ≠
      pick_topk_items (fun _ _ => [itemA, itemB]) 0 cfgA 2 := by
  norm_num [pick_topk_items, pickLoop, plan, rankItems, pyTake, cfgA,
    itemA, itemB, List.insertionSort, List.orderedInsert, itemLE,
    score_item, safe_get_cloud, summarize, mkBundle]
  decide

/-- C1 (amended): the selector's candidate sequence is always sorted by
the total order (cloud cover ascending with absent/unparsable cloud as
`+inf` sorting last, then |Δt| in hours, then timestamp); whenever no
two items of the pool share the full sort key — cloud score and
timestamp — reversing the pool yields the identical ranked sequence;
and the whole selector output is invariant under reversing every tier's
catalog response provided, in addition, each response fits under the
local collection cap (`max(max_items, 1)` items, per the append-then-
break loop) — an over-long response is truncated to a different subset
once reversed, so the cap condition cannot be dropped. -/
theorem C1_ranking_sorted_stable :
    (∀ (target : ℤ) (items : List Item) (k : ℤ),
      List.Sorted (itemLE target) (pyTake (rankItems target items) k)) ∧
    (∀ (target : ℤ) (items : List Item),
      (items.map (score_item target)).Nodup →
      rankItems target items.reverse = rankItems target items) ∧
    (∀ (search : ℤ → ℚ → List Item) (target : ℤ) (cfg : PickConfig) (k : ℤ),
      (∀ w c, ((search w c).map (score_item target)).Nodup) →
      (∀ w c, (search w c).length ≤ max cfg.max_items 1) →
      pick_topk_items (fun w c => (search w c).reverse) target cfg k =
        pick_topk_items search target cfg k) := by
  refine ⟨?_, rankItems_reverse_eq, ?_⟩
  · intro target items k
    have hs := rankItems_sorted target items
    unfold pyTake
    split
    · exact hs.sublist (List.take_sublist _ _)
    · exact hs.sublist (List.take_sublist _ _)
  · intro search target cfg k hnodup hlen
    exact pickLoop_reverse search target cfg k hnodup hlen (plan cfg) none

/-- Fixture: two items with distinct cloud covers (distinct score keys). -/
def itemC : Item := ⟨"c", 0, some 1, none, []⟩

/-- Fixture: see `itemC`. -/
def itemD : Item := ⟨"d", 0, some 2, none, []⟩

/-- C1 witness: with distinct score keys, reversing the pool changes
neither the ranked sequence nor the selector output. -/
theorem C1_ranking_sorted_stable_witness :
    rankItems 0 [itemC, itemD].reverse = rankItems 0 [itemC, itemD] ∧
      pick_topk_items
          (fun w c => (((fun _ _ => [itemC, itemD]) : ℤ → ℚ → List Item) w c).reverse)
          0 cfgA 2 =
        pick_topk_items (fun _ _ => [itemC, itemD]) 0 cfgA 2 := by
  have hnodup : ([itemC, itemD].map (score_item 0)).Nodup := by
    norm_num [itemC, itemD, score_item, safe_get_cloud, List.nodup_cons]
  exact ⟨C1_ranking_sorted_stable.2.1 0 [itemC, itemD] hnodup,
    C1_ranking_sorted_stable.2.2 (fun _ _ => [itemC, itemD]) 0 cfgA 2
      (fun _ _ => hnodup) (fun _ _ => by norm_num [cfgA])⟩

end S2

namespace S2

/-- C8 counterexample: on the channel `[NaN, 5]` both percentile and
min/max ranges are degenerate; `percentile_stretch` returns the all-zero
array `[0, 0]`, while the claimed widen-to-`[min, min+1]` behaviour would
map the NaN pixel to NaN — the degenerate-range fallback of the claim
does not hold in this implementation of the stretch. -/
theorem C8_counterexample :
    percentile_stretch [none, some 5] = [some 0, some 0] ∧
      percentile_stretch_specWiden [none, some 5] = [none, some 0] ∧
      percentile_stretch [none, some 5] ≠
        percentile_stretch_specWiden [none, some 5] := by
  have h1 : percentile_stretch [none, some 5] = [some 0, some 0] := by
    norm_num [percentile_stretch, ps_lohi, nanpercentile, npPercentile,
      finiteVals, degenerateRange, npMin, npMax, List.insertionSort,
      List.orderedInsert, List.filterMap]
  have h2 : percentile_stretch_specWiden [none, some 5] = [none, some 0] := by
    norm_num [percentile_stretch_specWiden, nanpercentile, npPercentile,
      finiteVals, degenerateRange, npMin, npClip, List.insertionSort,
      List.orderedInsert, List.filterMap]
  refine ⟨h1, h2, ?_⟩
  rw [h1, h2]
  simp

/-- C8 (amended): every stretch implementation is total with no division
by zero — whenever the linear mapping is reached its range satisfies
`lo < hi`; in the two `normalize_rgb_uint8` implementations the
degenerate range is widened to `[min(v), min(v)+1]` precisely when the
`[min(v), max(v)]` retry is itself degenerate, while
`s2_make_rgb.percentile_stretch` instead returns an all-zero array when
even its `[nanmin, nanmax]` retry is degenerate. -/
theorem C8_stretch_ranges :
    (∀ chan : List (Option ℚ), (lohi_compare chan).1 < (lohi_compare chan).2) ∧
    (∀ (chan : List (Option ℚ)) (p : ℚ × ℚ),
      lohi_top3 chan = some p → p.1 < p.2) ∧
    (∀ (x : List (Option ℚ)) (p : ℚ × ℚ), ps_lohi x = some p → p.1 < p.2) ∧
    (∀ (chan : List (Option ℚ)) (m M : ℚ),
      (lohiP_compare chan).2 ≤ (lohiP_compare chan).1 →
      npMin (posVals chan) = some m → npMax (posVals chan) = some M →
      M ≤ m → lohi_compare chan = (m, m + 1)) ∧
    (∀ (chan : List (Option ℚ)) (l h m M : ℚ),
      lohiP_top3 chan = some (l, h) → h ≤ l →
      npMin (posVals chan) = some m → npMax (posVals chan) = some M →
      M ≤ m → lohi_top3 chan = some (m, m + 1)) ∧
    (∀ x : List (Option ℚ),
      degenerateRange (nanpercentile x 2) (nanpercentile x 98) = true →
      degenerateRange (npMin (finiteVals x)) (npMax (finiteVals x)) = true →
      percentile_stretch x = x.map fun _ => some 0) := by
  refine ⟨?_, ?_, ?_, ?_, ?_, ?_⟩
  · intro chan
    unfold lohi_compare
    dsimp only
    split
    · split
      · exact lt_add_one _
      · next hno => exact lt_of_not_le hno
    · next hno => exact lt_of_not_le hno
  · intro chan p hp
    unfold lohi_top3 at hp
    revert hp
    cases hP : lohiP_top3 chan with
    | none => intro hp; exact absurd hp (by simp)
    | some lh =>
      obtain ⟨l, h⟩ := lh
      dsimp only
      split
      · cases hmin : npMin (posVals chan) with
        | none => intro hp; exact absurd hp (by simp)
        | some m =>
          dsimp only
          split
          · intro hp
            obtain rfl : (m, m + 1) = p := Option.some.inj hp
            exact lt_add_one _
          · next hno =>
            intro hp
            obtain rfl : (m, _) = p := Option.some.inj hp
            exact lt_of_not_le hno
      · next hno =>
        intro hp
        obtain rfl : (l, h) = p := Option.some.inj hp
        exact lt_of_not_le hno
  · intro x p hp
    unfold ps_lohi at hp
    revert hp
    dsimp only
    split
    · split
      · intro hp; exact absurd hp (by simp)
      · next hdeg2 =>
        cases hlo2 : npMin (finiteVals x) with
        | none => exact absurd (by simp [degenerateRange, hlo2]) hdeg2
        | some l =>
          cases hhi2 : npMax (finiteVals x) with
          | none => exact absurd (by simp [degenerateRange, hlo2, hhi2]) hdeg2
          | some h =>
            intro hp
            obtain rfl : (l, h) = p := Option.some.inj hp
            have : ¬ h ≤ l := by
              intro hle
              exact hdeg2 (by simp [degenerateRange, hlo2, hhi2, hle])
            exact lt_of_not_le this
    · next hdeg =>
      cases hlo : nanpercentile x 2 with
      | none => exact absurd (by simp [degenerateRange, hlo]) hdeg
      | some l =>
        cases hhi : nanpercentile x 98 with
        | none => exact absurd (by simp [degenerateRange, hlo, hhi]) hdeg
        | some h =>
          intro hp
          obtain rfl : (l, h) = p := Option.some.inj hp
          have : ¬ h ≤ l := by
            intro hle
            exact hdeg (by simp [degenerateRange, hlo, hhi, hle])
          exact lt_of_not_le this
  · intro chan m M hdeg hmin hmax hM
    unfold lohi_compare
    rw [if_pos hdeg, hmin, hmax]
    dsimp only
    rw [if_pos hM]
  · intro chan l h m M hP hdeg hmin hmax hM
    unfold lohi_top3
    rw [hP]
    dsimp only
    rw [if_pos hdeg, hmin]
    dsimp only
    rw [hmax]
    dsimp only
    rw [if_pos hM]
  · intro x h1 h2
    have hnone : ps_lohi x = none := by
      unfold ps_lohi
      rw [if_pos h1, if_pos h2]
    unfold percentile_stretch
    rw [hnone]

/-- C8 witness: the widen-to-`[min, min+1]` fallback of both
`normalize_rgb_uint8` implementations on a constant channel, and the
all-zero fallback of `percentile_stretch` on an all-NaN channel. -/
theorem C8_stretch_ranges_witness :
    lohi_compare [some 5, some 5] = (5, 5 + 1) ∧
      lohi_top3 [some 5, some 5] = some (5, 5 + 1) ∧
      percentile_stretch [(none : Option ℚ)] =
        [(none : Option ℚ)].map fun _ => some 0 := by
  have hpos : posVals [some 5, some 5] = [5, 5] := by
    norm_num [posVals, finiteVals, List.filterMap, List.filter]
  have hP : lohiP_compare [some 5, some 5] = (5, 5) := by
    norm_num [lohiP_compare, hpos, finiteVals, npPercentile,
      List.insertionSort, List.orderedInsert, List.filterMap]
  have hPt : lohiP_top3 [some 5, some 5] = some (5, 5) := by
    norm_num [lohiP_top3, hpos, finiteVals, npPercentile,
      List.insertionSort, List.orderedInsert, List.filterMap]
  have hmin : npMin (posVals [some 5, some 5]) = some 5 := by
    norm_num [hpos, npMin]
  have hmax : npMax (posVals [some 5, some 5]) = some 5 := by
    norm_num [hpos, npMax]
  refine ⟨C8_stretch_ranges.2.2.2.1 [some 5, some 5] 5 5 (by rw [hP]) hmin hmax
      le_rfl,
    C8_stretch_ranges.2.2.2.2.1 [some 5, some 5] 5 5 5 5 hPt le_rfl hmin hmax
      le_rfl,
    C8_stretch_ranges.2.2.2.2.2 [(none : Option ℚ)] (by rfl) (by rfl)⟩

end S2

namespace S2

/-- C9: `ensure_download` is idempotent — when a non-empty file already
sits at the destination it returns with the file state untouched and no
object-store call (for any href, a non-empty destination file means the
state cannot change); consequently re-running the whole download stage
against a fully populated output tree performs zero network calls and
modifies no file. -/
theorem C9_download_idempotent :
    (∀ (remote : String → String → ℕ) (st : DLState) (href : Url)
      (out_path : String) (sz : ℕ),
      href.scheme = "s3" → st.fs.lookup out_path = some sz → 0 < sz →
      ensure_download remote st href out_path = .ok st) ∧
    (∀ (remote : String → String → ℕ) (st : DLState) (href : Url)
      (out_path : String) (sz : ℕ) (st' : DLState),
      st.fs.lookup out_path = some sz → 0 < sz →
      ensure_download remote st href out_path = .ok st' → st' = st) ∧
    (∀ (remote : String → String → ℕ) (jobs : List (Url × String))
      (st : DLState),
      (∀ j ∈ jobs, j.1.scheme = "s3" ∧
        ∃ sz, st.fs.lookup j.2 = some sz ∧ 0 < sz) →
      run_downloads remote jobs st = .ok st) := by
  have hsingle : ∀ (remote : String → String → ℕ) (st : DLState) (href : Url)
      (out_path : String) (sz : ℕ),
      href.scheme = "s3" → st.fs.lookup out_path = some sz → 0 < sz →
      ensure_download remote st href out_path = .ok st := by
    intro remote st href out_path sz hscheme hlook hsz
    unfold ensure_download parse_s3_href
    rw [if_pos hscheme]
    dsimp only
    rw [hlook]
    dsimp only
    rw [if_pos hsz]
  refine ⟨hsingle, ?_, ?_⟩
  · intro remote st href out_path sz st' hlook hsz h
    unfold ensure_download at h
    revert h
    cases hp : parse_s3_href href with
    | error e => intro h; exact absurd h (by simp)
    | ok bk =>
      obtain ⟨bucket, key⟩ := bk
      dsimp only
      rw [hlook]
      dsimp only
      rw [if_pos hsz]
      intro h
      exact (Except.ok.inj h).symm
  · intro remote jobs
    induction jobs with
    | nil => intro st _; rfl
    | cons j rest ih =>
      intro st hall
      obtain ⟨hscheme, sz, hlook, hsz⟩ := hall j (by simp)
      have hstep := hsingle remote st j.1 j.2 sz hscheme hlook hsz
      unfold run_downloads at ih ⊢
      rw [List.foldlM_cons, hstep]
      exact ih st fun j' hj' => hall j' (by simp [hj'])

/-- C9 witness: a one-job rerun over a tree already holding a non-empty
file performs no download and returns the state unchanged. -/
theorem C9_download_idempotent_witness :
    ensure_download (fun _ _ => 7) ⟨[("out.jp2", 42)], 0⟩
        ⟨"s3", "eodata", "/k"⟩ "out.jp2" = .ok ⟨[("out.jp2", 42)], 0⟩ ∧
      run_downloads (fun _ _ => 7) [(⟨"s3", "eodata", "/k"⟩, "out.jp2")]
        ⟨[("out.jp2", 42)], 0⟩ = .ok ⟨[("out.jp2", 42)], 0⟩ :=
  ⟨C9_download_idempotent.1 (fun _ _ => 7) ⟨[("out.jp2", 42)], 0⟩
      ⟨"s3", "eodata", "/k"⟩ "out.jp2" 42 rfl (by simp [List.lookup])
      (by norm_num),
    C9_download_idempotent.2.2 (fun _ _ => 7)
      [(⟨"s3", "eodata", "/k"⟩, "out.jp2")] ⟨[("out.jp2", 42)], 0⟩
      (by intro j hj
          simp only [List.mem_singleton] at hj
          subst hj
          exact ⟨rfl, 42, by simp [List.lookup], by norm_num⟩)⟩

end S2
